import Mathlib

/-!
Verification of the Smart Spreadsheet frontend analytics helpers.

JavaScript numbers are modelled by the type `JsNum`: a finite value is an
exact rational (the specification states its numeric identities up to
floating-point tolerance, so finite arithmetic is modelled exactly over
the rationals), and the special values NaN and the two infinities follow
the IEEE-754 propagation rules.  Only the positive zero is modelled; the
sign of zero is never observable in the code under verification because
every division is guarded by an explicit zero or positivity check.
-/

inductive JsNum where
  | fin (q : ℚ)
  | nan
  | inf
  | ninf
deriving DecidableEq

/-- Number.isFinite: true exactly on finite numbers. -/
def JsNum.isFinite : JsNum → Bool
  | .fin _ => true
  | _ => false

/-- IEEE-754 subtraction on the embedded number type. -/
def jsSub : JsNum → JsNum → JsNum
  | .fin a, .fin b => .fin (a - b)
  | .fin _, .inf => .ninf
  | .fin _, .ninf => .inf
  | .inf, .fin _ => .inf
  | .inf, .ninf => .inf
  | .ninf, .fin _ => .ninf
  | .ninf, .inf => .ninf
  | .inf, .inf => .nan
  | .ninf, .ninf => .nan
  | .nan, _ => .nan
  | _, .nan => .nan

/-- IEEE-754 multiplication on the embedded number type. -/
def jsMul : JsNum → JsNum → JsNum
  | .fin a, .fin b => .fin (a * b)
  | .fin a, .inf => if a = 0 then .nan else if 0 < a then .inf else .ninf
  | .fin a, .ninf => if a = 0 then .nan else if 0 < a then .ninf else .inf
  | .inf, .fin b => if b = 0 then .nan else if 0 < b then .inf else .ninf
  | .ninf, .fin b => if b = 0 then .nan else if 0 < b then .ninf else .inf
  | .inf, .inf => .inf
  | .inf, .ninf => .ninf
  | .ninf, .inf => .ninf
  | .ninf, .ninf => .inf
  | .nan, _ => .nan
  | _, .nan => .nan

/-- IEEE-754 division (positive zero only: a nonzero finite value divided
by zero yields an infinity of the numerator's sign). -/
def jsDiv : JsNum → JsNum → JsNum
  | .fin a, .fin b =>
      if b = 0 then (if a = 0 then .nan else if 0 < a then .inf else .ninf)
      else .fin (a / b)
  | .fin _, .inf => .fin 0
  | .fin _, .ninf => .fin 0
  | .inf, .fin b => if b < 0 then .ninf else .inf
  | .ninf, .fin b => if b < 0 then .inf else .ninf
  | .inf, .inf => .nan
  | .inf, .ninf => .nan
  | .ninf, .inf => .nan
  | .ninf, .ninf => .nan
  | .nan, _ => .nan
  | _, .nan => .nan

/-- Math.abs. -/
def jsAbs : JsNum → JsNum
  | .fin a => .fin |a|
  | .nan => .nan
  | .inf => .inf
  | .ninf => .inf

/-- The JavaScript comparison a >= b; false whenever either side is NaN. -/
def jsGe : JsNum → JsNum → Bool
  | .nan, _ => false
  | _, .nan => false
  | .fin a, .fin b => decide (b ≤ a)
  | .inf, _ => true
  | _, .inf => false
  | _, .ninf => true
  | .ninf, .fin _ => false

/-- The JavaScript comparison a <= b; false whenever either side is NaN. -/
def jsLe (a b : JsNum) : Bool := jsGe b a

/-- JavaScript strict equality === restricted to numbers: NaN is not equal
to anything, including itself. -/
def jsEqNum : JsNum → JsNum → Bool
  | .fin a, .fin b => a == b
  | .inf, .inf => true
  | .ninf, .ninf => true
  | _, _ => false

/-- Math.min: NaN if either argument is NaN, otherwise the smaller value. -/
def jsMin : JsNum → JsNum → JsNum
  | .nan, _ => .nan
  | _, .nan => .nan
  | a, b => if jsLe a b then a else b

/-- Math.max: NaN if either argument is NaN, otherwise the larger value. -/
def jsMax : JsNum → JsNum → JsNum
  | .nan, _ => .nan
  | _, .nan => .nan
  | a, b => if jsGe a b then a else b

/-!
Generic row values.  A cell of a JSON row object is a string, a number or
null; a missing field reads as undefined, modelled by an `Option` lookup.
-/

inductive Cell where
  | str (s : String)
  | num (n : JsNum)
  | nullv
deriving DecidableEq

/-- Property lookup on a JSON object, modelled as an association list; the
first binding wins (object keys are unique in the source data). -/
def getField : List (String × Cell) → String → Option Cell
  | [], _ => none
  | (k, v) :: rest, key => if k = key then some v else getField rest key

/-!
Embedding of pctChange, frontend home page (src/unnamed/part_001, lines
43 to 51): growth between the last two points of a trend series, with
typeof, finiteness and zero-previous guards.
-/

def pctChange (points : List (List (String × Cell))) (key : String) : Option JsNum :=
  if points.length < 2 then none
  else
    let last := (points.get? (points.length - 1)).bind (fun r => getField r key)
    let prev := (points.get? (points.length - 2)).bind (fun r => getField r key)
    match last, prev with
    | some (.num l), some (.num p) =>
        if !l.isFinite || !p.isFinite || jsEqNum p (.fin 0) then none
        else some (jsMul (jsDiv (jsSub l p) (jsAbs p)) (.fin 100))
    | _, _ => none

/-!
Embedding of the BusinessInsightsSuite component helpers
(src/unnamed/part_015).
-/

structure SimplifiedTrendPoint where
  period : String
  revenue : Option JsNum
  cost : Option JsNum
  profit : Option JsNum
deriving DecidableEq

inductive TrendKey where
  | revenue
  | cost
  | profit
deriving DecidableEq

def SimplifiedTrendPoint.get (p : SimplifiedTrendPoint) : TrendKey → Option JsNum
  | .revenue => p.revenue
  | .cost => p.cost
  | .profit => p.profit

/-- computeTrendPct (part_015 lines 138 to 144): growth between the last
two points for one of the keys revenue, cost, profit.  The source checks
typeof current and typeof previous (an absent or null field fails the
check; NaN and the infinities pass it, since their typeof is number) and
previous === 0, with no finiteness guard. -/
def computeTrendPct (points : List SimplifiedTrendPoint) (key : TrendKey) : Option JsNum :=
  if points.length < 2 then none
  else
    match (points.get? (points.length - 1)).bind (fun p => p.get key),
          (points.get? (points.length - 2)).bind (fun p => p.get key) with
    | some current, some previous =>
        if jsEqNum previous (.fin 0) then none
        else some (jsMul (jsDiv (jsSub current previous) (jsAbs previous)) (.fin 100))
    | _, _ => none

/-- progressPct (part_015 lines 146 to 150): goal progress bar width.
The source returns 0 when the target is not finite, the target is not
strictly positive, or the actual value (null and undefined collapse to
null via the ?? operator) is not finite; otherwise the clamped ratio. -/
def progressPct (actual : Option JsNum) (target : JsNum) : JsNum :=
  if !target.isFinite || jsLe target (.fin 0) || !(actual.elim false JsNum.isFinite) then .fin 0
  else
    let raw := jsMul (jsDiv (actual.getD (.fin 0)) target) (.fin 100)
    jsMax (.fin 0) (jsMin (.fin 100) raw)

/-- Result of a presentation formatter: either the N/A placeholder, or a
concrete rendering of the finite number that was formatted.  The actual
digit strings produced by Intl.NumberFormat and toFixed are irrelevant to
the claims; what matters is which values render as N/A. -/
inductive Rendered where
  | na
  | currency (q : ℚ)
  | pct (q : ℚ)
deriving DecidableEq

/-- formatCurrency (part_015 lines 124 to 131): N/A for null, undefined
and non-finite values, a currency rendering for finite numbers. -/
def formatCurrency (value : Option JsNum) : Rendered :=
  match value with
  | none => .na
  | some v => match v with
    | .fin q => .currency q
    | _ => .na

/-- formatPct (part_015 lines 133 to 136): N/A for null, undefined and
non-finite values, a percentage rendering for finite numbers. -/
def formatPct (value : Option JsNum) : Rendered :=
  match value with
  | none => .na
  | some v => match v with
    | .fin q => .pct q
    | _ => .na

/-!
Embedding of normalizeNumber, OverviewCharts component
(src/unnamed/part_002, lines 36 to 43).  The source calls the JavaScript
Number() conversion on strings; that conversion is an external builtin,
so it is passed in as an uninterpreted parameter -- the claims only
depend on the finiteness guard applied to its result.
-/

inductive JsVal where
  | num (n : JsNum)
  | str (s : String)
  | nullv
  | undef
  | other
deriving DecidableEq

def normalizeNumber (jsNumberOfString : String → JsNum) (value : JsVal) : Option JsNum :=
  match value with
  | .num n => if n.isFinite then some n else none
  | .str s =>
      let parsed := jsNumberOfString s
      if parsed.isFinite then some parsed else none
  | _ => none

/-!
Trend direction rendering.
-/

inductive TrendDirection where
  | up
  | down
deriving DecidableEq

/-- The arrow choice for a non-null trend value (part_015 line 239 and
the analogous lines 265 for profit): up arrow when the value >= 0, down
arrow otherwise, with the JavaScript comparison semantics. -/
def trendRevenueArrow (trendRevenue : JsNum) : TrendDirection :=
  if jsGe trendRevenue (.fin 0) then .up else .down

/-- growthUp (part_001 line 93): badge direction, defaulting to up when
the growth value is null. -/
def growthUp (revenueMoM : Option JsNum) : Bool :=
  match revenueMoM with
  | none => true
  | some v => jsGe v (.fin 0)

/-!
String helpers: the JavaScript String.prototype.includes substring test,
written out over character lists.
-/

def charsStartWith : List Char → List Char → Bool
  | [], _ => true
  | _ :: _, [] => false
  | p :: ps, c :: cs => p == c && charsStartWith ps cs

def charsContain (pat : List Char) : List Char → Bool
  | [] => pat.isEmpty
  | c :: cs => charsStartWith pat (c :: cs) || charsContain pat cs

def strIncludes (s pat : String) : Bool := charsContain pat.data s.data

/-- ASCII lowercasing over the character list: the effect of the
JavaScript toLowerCase call on the identifiers involved here. -/
def lowerChars : List Char → List Char
  | [] => []
  | c :: cs => c.toLower :: lowerChars cs

def lowerStr (s : String) : String := ⟨lowerChars s.data⟩

/-- The JavaScript startsWith test. -/
def strStarts (s pat : String) : Bool := charsStartWith pat.data s.data

/-- The JavaScript trim call: strip whitespace from both ends. -/
def strTrim (s : String) : String :=
  ⟨((s.data.dropWhile Char.isWhitespace).reverse.dropWhile Char.isWhitespace).reverse⟩

/-!
Embedding of the revenue column heuristic of the Overview pages
(src/unnamed/part_003 line 146 and
src/frontend/components/AIAssistant.tsx line 234): first numeric column
whose lowercased name includes the substring revenue or sales, else the
first numeric column.  A matched name is never the empty string, so the
JavaScript || fallback fires exactly when find returns undefined.
-/

def revenueNameMatch (c : String) : Bool :=
  strIncludes (lowerStr c) "revenue" || strIncludes (lowerStr c) "sales"

def revCol (numCols : List String) : Option String :=
  match numCols.find? revenueNameMatch with
  | some c => some c
  | none => numCols.head?

/-- First column whose lowercased name includes one of the given
substrings, scanning left to right: the rule-list form in which the spec
states the role-detection policy. -/
def firstRoleMatch (pats : List String) : List String → Option String
  | [] => none
  | c :: rest =>
      if pats.any (fun p => strIncludes (lowerStr c) p) then some c
      else firstRoleMatch pats rest

/-- Claim C4 as frozen: revenue role is the first column whose name
includes revenue, sales or income. -/
def claimRevenueRoleC4 (numCols : List String) : Option String :=
  firstRoleMatch ["revenue", "sales", "income"] numCols

/-- Claim C4 as frozen: growth metric is the detected revenue column when
one exists, else the first numeric column. -/
def claimGrowthMetricC4 (numCols : List String) : Option String :=
  match claimRevenueRoleC4 numCols with
  | some c => some c
  | none => numCols.head?

/-- Amended revenue role: the substrings actually matched by the code are
revenue and sales only. -/
def claimRevenueRoleAmended (numCols : List String) : Option String :=
  firstRoleMatch ["revenue", "sales"] numCols

/-- Amended growth metric built from the amended role. -/
def claimGrowthMetricAmended (numCols : List String) : Option String :=
  match claimRevenueRoleAmended numCols with
  | some c => some c
  | none => numCols.head?

/-!
Embedding of the integration-test endpoint (src/unnamed/part_014).  URL
parsing (the new URL(...) constructor) is an external builtin, passed in
as an uninterpreted function returning the protocol of a parseable input
and none where the constructor would throw.  The upstream fetch is
modelled by its observable outcome: a response with its ok flag and
status, or a thrown error -- a network failure, or the abort fired by the
8000 ms timer (requestTimeoutMs below).
-/

structure TestRequest where
  target_url : Option String
  /-- The optional payload is forwarded to the upstream endpoint opaquely;
  it never influences the shape of the response, which is why its content
  is not modelled. -/
  payload : Option Unit
deriving DecidableEq

inductive BodyParse where
  | failed
  | parsed (body : TestRequest)
deriving DecidableEq

inductive UpstreamOutcome where
  | responded (ok : Bool) (status : Nat)
  | threw (message : String)
deriving DecidableEq

structure JsonResponse where
  status : Nat
  ok : Bool
  detail : Option String
  upstreamStatus : Option Nat
deriving DecidableEq

/-- The abort window for the upstream call, in milliseconds (part_014
line 34). -/
def requestTimeoutMs : Nat := 8000

def isValidHttpUrl (protocolOf : String → Option String) (input : String) : Bool :=
  match protocolOf input with
  | some p => p == "http:" || p == "https:"
  | none => false

/-- String(body.target_url || "").trim(): the target URL string extracted
from the request body. -/
def requestTargetUrl (body : TestRequest) : String :=
  strTrim (body.target_url.getD "")

/-- The POST handler of the integration-test endpoint (part_014 lines 19
to 62).  The literal detail strings of the non-OK branch interpolate the
upstream status; the interpolated number is carried separately in
upstreamStatus. -/
def POST (protocolOf : String → Option String) (bp : BodyParse)
    (upstream : UpstreamOutcome) : JsonResponse :=
  match bp with
  | .failed => ⟨400, false, some "Invalid JSON body.", none⟩
  | .parsed body =>
      let targetUrl := requestTargetUrl body
      if targetUrl == "" || !isValidHttpUrl protocolOf targetUrl then
        ⟨400, false, some "A valid target_url is required.", none⟩
      else
        match upstream with
        | .responded true s => ⟨200, true, none, some s⟩
        | .responded false s => ⟨502, false, some "Endpoint responded with an error status.", some s⟩
        | .threw m => ⟨502, false, some m, none⟩

/-!
Embedding of the backend proxy route
(src/frontend/app/api/backend/[...path]/route.ts).  A Headers object is
modelled as an association list whose stored names are lowercased on
insertion, matching the case-insensitive normalization of the Fetch
Headers class.
-/

def hopByHopHeaders : List String :=
  ["connection", "keep-alive", "proxy-authenticate", "proxy-authorization",
   "te", "trailer", "transfer-encoding", "upgrade", "host", "content-length",
   "content-encoding", "accept-encoding"]

def hset (hs : List (String × String)) (k v : String) : List (String × String) :=
  (hs.filter (fun p => p.1 ≠ lowerStr k)) ++ [(lowerStr k, v)]

def hhas (hs : List (String × String)) (k : String) : Bool :=
  hs.any (fun p => p.1 == lowerStr k)

def hdel (hs : List (String × String)) (k : String) : List (String × String) :=
  hs.filter (fun p => p.1 ≠ lowerStr k)

/-- The forEach copy loop of proxyRequest (route.ts lines 77 to 81):
every incoming header whose lowercased name is not hop-by-hop is set on
the outgoing Headers object. -/
def copyHeadersAux : List (String × String) → List (String × String) → List (String × String)
  | acc, [] => acc
  | acc, (k, v) :: rest =>
      copyHeadersAux (if hopByHopHeaders.contains (lowerStr k) then acc else hset acc k v) rest

def copyHeaders (incoming : List (String × String)) : List (String × String) :=
  copyHeadersAux [] incoming

/-- The environment configuration read at module load: apiToken is the
trimmed BACKEND_API_TOKEN || MVP_API_TOKEN value, production tells
whether NODE_ENV is production, tenantId and userId are the trimmed
BACKEND_TENANT_ID and BACKEND_USER_ID values (route.ts lines 5 to 8). -/
structure ProxyEnv where
  apiToken : String
  production : Bool
  tenantId : String
  userId : String

/-- resolveAuthToken (route.ts lines 25 to 31). -/
def resolveAuthToken (env : ProxyEnv) : String :=
  if env.apiToken ≠ "" then env.apiToken
  else if env.production = false then "dev-insecure-token"
  else ""

/-- allowsAnonymous (route.ts lines 60 to 66). -/
def allowsAnonymous (path : List String) : Bool :=
  let joined := String.intercalate "/" path
  if joined == "" then true
  else if joined == "health" || joined == "ready" then true
  else strStarts joined "auth/signin" || strStarts joined "auth/signup"

/-- The header-manipulation core of proxyRequest (route.ts lines 75 to
97): copy non-hop-by-hop headers, then either inject the fallback
Authorization plus tenant and user headers (only without incoming
authorization, on a non-anonymous path, with a nonempty resolved token) or
strip the client-supplied tenant and user headers. -/
def proxyRequestHeaders (env : ProxyEnv) (incoming : List (String × String))
    (path : List String) : List (String × String) :=
  let headers := copyHeaders incoming
  let hasIncomingAuth := hhas headers "authorization"
  if !hasIncomingAuth then
    if !allowsAnonymous path then
      let authToken := resolveAuthToken env
      if authToken ≠ "" then
        let h1 := hset headers "Authorization" ("Bearer " ++ authToken)
        let h2 := if !hhas h1 "X-Tenant-Id" then hset h1 "X-Tenant-Id" env.tenantId else h1
        if !hhas h2 "X-User-Id" then hset h2 "X-User-Id" env.userId else h2
      else headers
    else headers
  else
    hdel (hdel headers "x-tenant-id") "x-user-id"

/-!
Embedding of the scenario simulator baseline and projections
(src/unnamed/part_015 lines 213 to 220).  The business summary arrives
from the backend as JSON, whose numbers are always finite, so its numeric
fields are modelled as optional rationals.
-/

structure BusinessSummary where
  profit_available : Bool
  revenue_column : Option String
  cost_column : Option String
  profit_column : Option String
  total_revenue : Option ℚ
  total_cost : Option ℚ
  total_profit : Option ℚ
  profit_margin_pct : Option ℚ
  profit_rows : Option ℚ
  loss_rows : Option ℚ
  neutral_rows : Option ℚ
  message : Option String
deriving DecidableEq

def baselineRevenue (businessSummary : Option BusinessSummary) : ℚ :=
  (businessSummary.bind (fun b => b.total_revenue)).getD 0

def baselineCost (businessSummary : Option BusinessSummary) : ℚ :=
  (businessSummary.bind (fun b => b.total_cost)).getD
    (max 0 (baselineRevenue businessSummary
      - (businessSummary.bind (fun b => b.total_profit)).getD 0))

def baselineProfit (businessSummary : Option BusinessSummary) : ℚ :=
  (businessSummary.bind (fun b => b.total_profit)).getD
    (baselineRevenue businessSummary - baselineCost businessSummary)

def projectedRevenue (businessSummary : Option BusinessSummary)
    (pricePct volumePct : ℚ) : ℚ :=
  baselineRevenue businessSummary * (1 + pricePct / 100) * (1 + volumePct / 100)

def projectedCost (businessSummary : Option BusinessSummary)
    (costPct volumePct : ℚ) : ℚ :=
  baselineCost businessSummary * (1 + costPct / 100) * (1 + volumePct / 100)

def projectedProfit (businessSummary : Option BusinessSummary)
    (pricePct costPct volumePct : ℚ) : ℚ :=
  projectedRevenue businessSummary pricePct volumePct
    - projectedCost businessSummary costPct volumePct

def projectedMargin (businessSummary : Option BusinessSummary)
    (pricePct costPct volumePct : ℚ) : Option ℚ :=
  if projectedRevenue businessSummary pricePct volumePct = 0 then none
  else some (projectedProfit businessSummary pricePct costPct volumePct
    / projectedRevenue businessSummary pricePct volumePct * 100)

def projectedProfitDelta (businessSummary : Option BusinessSummary)
    (pricePct costPct volumePct : ℚ) : ℚ :=
  projectedProfit businessSummary pricePct costPct volumePct
    - baselineProfit businessSummary

/-- Modelled from the spec: the backend Business Summary engine is not in
the source tree (only its frontend consumers are); the spec defines
profit_margin_pct as total_profit / total_revenue * 100 when
total_revenue is positive, else null. -/
def datasetProfitMarginPct (total_profit total_revenue : ℚ) : Option ℚ :=
  if 0 < total_revenue then some (total_profit / total_revenue * 100) else none

/-- A business summary with only the three totals populated, as the
scenario simulator reads it. -/
def mkSummary (r c p : Option ℚ) : BusinessSummary :=
  ⟨true, none, none, none, r, c, p, none, none, none, none, none⟩

/-- A summary with negative total revenue: a dataset whose revenue column
sums to a negative value. -/
def cexNegativeRevenueSummary : BusinessSummary := mkSummary (some (-100)) (some 50) none

/-- A summary with positive totals used to instantiate the margin and
scenario theorems. -/
def posSummary : BusinessSummary := mkSummary (some 100) (some 60) none

/-- The trend scenario from the spec: January revenue 100. -/
def trendPointJan : SimplifiedTrendPoint := ⟨"2024-01", some (.fin 100), none, none⟩

/-- The trend scenario from the spec: February revenue 150. -/
def trendPointFeb : SimplifiedTrendPoint := ⟨"2024-02", some (.fin 150), none, none⟩

/-- A URL parser that reports the https protocol for every input. -/
def httpsProtocolOf : String → Option String := fun _ => some "https:"

/-- A concrete integration-test request body. -/
def exampleTestRequest : TestRequest := ⟨some "https://example.com/hook", none⟩

/-- A development proxy environment: no configured token, not production. -/
def devProxyEnv : ProxyEnv := ⟨"", false, "1", "1"⟩

/-- An authenticated incoming request that also tries to smuggle a tenant
id header. -/
def authedIncoming : List (String × String) :=
  [("Authorization", "Bearer user-jwt"), ("X-Tenant-Id", "42"),
   ("content-type", "application/json")]

/-!
Helper lemmas.
-/

theorem clampLow_eq_max (y : ℚ) : (if y ≤ 0 then (0:ℚ) else y) = max 0 y := by
  by_cases hy : y ≤ 0
  · rw [if_pos hy, max_eq_left hy]
  · rw [if_neg hy, max_eq_right (le_of_lt (lt_of_not_le hy))]

theorem max_min_clamp_swap (x : ℚ) : max 0 (min 100 x) = min 100 (max 0 x) := by
  rcases le_total x 0 with h | h
  · rw [min_eq_right (h.trans (by norm_num)), max_eq_left h,
      min_eq_right (by norm_num)]
  · rw [max_eq_right h, max_eq_right (le_min (by norm_num) h)]

/-!
Claim theorems.
-/

/-- C7: determinism -- the analytic computations are pure functions of
their inputs; the embedded code reads nothing but its arguments, so two
evaluations on the same dataset and metric key agree definitionally. -/
theorem C7_determinism (points : List SimplifiedTrendPoint) (key : TrendKey)
    (rows : List (List (String × Cell))) (rkey : String)
    (actual : Option JsNum) (target : JsNum) :
    computeTrendPct points key = computeTrendPct points key
  ∧ pctChange rows rkey = pctChange rows rkey
  ∧ progressPct actual target = progressPct actual target :=
  ⟨rfl, rfl, rfl⟩

/-- C3: trend direction -- for a non-null growth value the arrow is up
exactly when the value compares greater than or equal to zero (with the
JavaScript comparison, which is false on NaN), down otherwise; on finite
values this is the usual order on the rationals.  The home-page badge
defaults to up on a null growth value, which the claim leaves
unconstrained. -/
theorem C3_trend_direction (g : JsNum) (q : ℚ) :
    (trendRevenueArrow g = .up ↔ jsGe g (.fin 0) = true)
  ∧ (trendRevenueArrow g = .down ↔ jsGe g (.fin 0) = false)
  ∧ (trendRevenueArrow (.fin q) = .up ↔ 0 ≤ q)
  ∧ growthUp (some g) = jsGe g (.fin 0) := by
  refine ⟨?_, ?_, ?_, rfl⟩
  · unfold trendRevenueArrow
    by_cases h : jsGe g (.fin 0) = true <;> simp [h]
  · unfold trendRevenueArrow
    by_cases h : jsGe g (.fin 0) = true <;> simp [h]
  · unfold trendRevenueArrow
    by_cases h : 0 ≤ q <;> simp [jsGe, h]

/-- C5: no NaN or Infinity crosses the presentation boundary --
normalizeNumber returns a finite number or null for every input and every
behaviour of the external Number() conversion, and the currency and
percentage formatters render N/A exactly on null, undefined and
non-finite inputs, formatting only finite numbers. -/
theorem C5_no_nan_crosses_boundary (parse : String → JsNum) (v : JsVal)
    (w : Option JsNum) :
    (normalizeNumber parse v = none ∨ ∃ q : ℚ, normalizeNumber parse v = some (.fin q))
  ∧ (formatCurrency w = .na ↔ ¬ ∃ q : ℚ, w = some (.fin q))
  ∧ (formatPct w = .na ↔ ¬ ∃ q : ℚ, w = some (.fin q))
  ∧ (∀ q : ℚ, formatCurrency (some (.fin q)) = .currency q
      ∧ formatPct (some (.fin q)) = .pct q) := by
  refine ⟨?_, ?_, ?_, fun q => ⟨rfl, rfl⟩⟩
  · cases v with
    | num n => cases n <;> simp [normalizeNumber, JsNum.isFinite]
    | str s =>
        cases hp : parse s with
        | fin q => exact Or.inr ⟨q, by simp [normalizeNumber, hp, JsNum.isFinite]⟩
        | nan => exact Or.inl (by simp [normalizeNumber, hp, JsNum.isFinite])
        | inf => exact Or.inl (by simp [normalizeNumber, hp, JsNum.isFinite])
        | ninf => exact Or.inl (by simp [normalizeNumber, hp, JsNum.isFinite])
    | nullv => exact Or.inl rfl
    | undef => exact Or.inl rfl
    | other => exact Or.inl rfl
  · cases w with
    | none => simp [formatCurrency]
    | some x => cases x <;> simp [formatCurrency]
  · cases w with
    | none => simp [formatPct]
    | some x => cases x <;> simp [formatPct]

/-- C10: the scenario simulator is an identity at zero adjustment --
projected revenue and cost equal the baselines, projected profit is their
difference by construction, and whenever the baseline profit is itself
revenue minus cost (in particular whenever the summary carries no
explicit total_profit), the projected profit equals the baseline profit
and the profit delta is zero. -/
theorem C10_scenario_identity_at_zero (bs : Option BusinessSummary) :
    projectedRevenue bs 0 0 = baselineRevenue bs
  ∧ projectedCost bs 0 0 = baselineCost bs
  ∧ (∀ p c v : ℚ, projectedProfit bs p c v
      = projectedRevenue bs p v - projectedCost bs c v)
  ∧ (baselineProfit bs = baselineRevenue bs - baselineCost bs →
       projectedProfit bs 0 0 0 = baselineProfit bs
       ∧ projectedProfitDelta bs 0 0 0 = 0) := by
  have hR : projectedRevenue bs 0 0 = baselineRevenue bs := by
    unfold projectedRevenue; norm_num
  have hC : projectedCost bs 0 0 = baselineCost bs := by
    unfold projectedCost; norm_num
  refine ⟨hR, hC, fun p c v => rfl, fun h => ?_⟩
  have hP : projectedProfit bs 0 0 0 = baselineProfit bs := by
    unfold projectedProfit; rw [hR, hC, h]
  exact ⟨hP, by unfold projectedProfitDelta; rw [hP, sub_self]⟩

theorem C10_witness :
    projectedProfit (some posSummary) 0 0 0 = baselineProfit (some posSummary)
  ∧ projectedProfitDelta (some posSummary) 0 0 0 = 0 :=
  (C10_scenario_identity_at_zero (some posSummary)).2.2.2 rfl

theorem firstRoleMatch_first (pats : List String) (cols : List String) (c : String)
    (h : firstRoleMatch pats cols = some c) :
    ∃ pre post, cols = pre ++ c :: post
      ∧ (pats.any (fun p => strIncludes (lowerStr c) p)) = true
      ∧ ∀ d ∈ pre, (pats.any (fun p => strIncludes (lowerStr d) p)) = false := by
  induction cols with
  | nil => simp [firstRoleMatch] at h
  | cons x rest ih =>
      by_cases hx : (pats.any (fun p => strIncludes (lowerStr x) p)) = true
      · rw [firstRoleMatch, if_pos hx] at h
        obtain rfl : x = c := Option.some.inj h
        exact ⟨[], rest, rfl, hx, by simp⟩
      · rw [firstRoleMatch, if_neg hx] at h
        obtain ⟨pre, post, hsplit, hc, hpre⟩ := ih h
        refine ⟨x :: pre, post, by rw [hsplit]; rfl, hc, ?_⟩
        intro d hd
        rcases List.mem_cons.mp hd with rfl | hd
        · exact Bool.eq_false_iff.mpr hx
        · exact hpre d hd

theorem claimRevenueRoleAmended_eq_find (cols : List String) :
    claimRevenueRoleAmended cols = cols.find? revenueNameMatch := by
  induction cols with
  | nil => rfl
  | cons x rest ih =>
      have hcond : (["revenue", "sales"].any fun p => strIncludes (lowerStr x) p)
          = revenueNameMatch x := by
        simp [List.any_cons, List.any_nil, revenueNameMatch]
      by_cases hx : revenueNameMatch x = true
      · rw [claimRevenueRoleAmended, firstRoleMatch, hcond, if_pos hx,
          List.find?_cons_of_pos _ hx]
      · rw [claimRevenueRoleAmended, firstRoleMatch, hcond,
          if_neg hx, List.find?_cons_of_neg _ (Bool.eq_false_iff.mp ?_)]
        · exact ih
        · exact Bool.eq_false_iff.mpr hx

/-- C4 (amended): the revenue column heuristic of the overview pages
matches the substrings revenue and sales only (case-insensitive, first
match wins, a role may remain undetected), and the growth metric is the
matched column when one exists, else the first numeric column. -/
theorem C4_revenue_role_amended (numCols : List String) :
    revCol numCols = claimGrowthMetricAmended numCols
  ∧ (∀ c, claimRevenueRoleAmended numCols = some c →
       revenueNameMatch c = true ∧ c ∈ numCols
       ∧ ∃ pre post, numCols = pre ++ c :: post
           ∧ ∀ d ∈ pre, revenueNameMatch d = false)
  ∧ (claimRevenueRoleAmended numCols = none ↔
       ∀ c ∈ numCols, revenueNameMatch c = false)
  ∧ (claimRevenueRoleAmended numCols = none →
       revCol numCols = numCols.head?) := by
  have hfind := claimRevenueRoleAmended_eq_find numCols
  refine ⟨?_, ?_, ?_, ?_⟩
  · rw [revCol, claimGrowthMetricAmended, hfind]
  · intro c hc
    have hmatch := List.find?_some (hfind ▸ hc)
    have hmem := List.mem_of_find?_eq_some (hfind ▸ hc)
    obtain ⟨pre, post, hsplit, -, hpre⟩ := firstRoleMatch_first _ _ _ hc
    refine ⟨hmatch, hmem, pre, post, hsplit, fun d hd => ?_⟩
    have := hpre d hd
    have hcond : (["revenue", "sales"].any fun p => strIncludes (lowerStr d) p)
        = revenueNameMatch d := by
      simp [List.any_cons, List.any_nil, revenueNameMatch]
    rw [hcond] at this
    exact this
  · rw [hfind, List.find?_eq_none]
    constructor
    · intro h c hc
      exact Bool.eq_false_iff.mpr (h c hc)
    · intro h c hc
      exact Bool.eq_false_iff.mp (h c hc)
  · intro h
    have hn : numCols.find? revenueNameMatch = none := by rw [← hfind]; exact h
    simp only [revCol, hn]

/-- C4 counterexample: on the numeric columns [total_income, sales_amt]
the claim as frozen picks total_income (the income substring matches
first), but the code matches only revenue and sales and therefore picks
sales_amt. -/
theorem C4_counterexample :
    claimGrowthMetricC4 ["total_income", "sales_amt"] = some "total_income"
  ∧ revCol ["total_income", "sales_amt"] = some "sales_amt"
  ∧ claimGrowthMetricC4 ["total_income", "sales_amt"]
      ≠ revCol ["total_income", "sales_amt"] := by
  refine ⟨by decide, by decide, by decide⟩

theorem C4_revenue_role_amended_witness :
    revenueNameMatch "sales_amt" = true ∧ "sales_amt" ∈ ["sales_amt"]
  ∧ ∃ pre post, ["sales_amt"] = pre ++ "sales_amt" :: post
      ∧ ∀ d ∈ pre, revenueNameMatch d = false :=
  (C4_revenue_role_amended ["sales_amt"]).2.1 "sales_amt" (by decide)

/-- C1 counterexample: a business summary whose total revenue is the
negative value -100 (not positive) still produces a numeric projected
margin of 150, not null -- the code only nulls the margin at a revenue of
exactly zero. -/
theorem C1_counterexample :
    projectedRevenue (some cexNegativeRevenueSummary) 0 0 = -100
  ∧ projectedMargin (some cexNegativeRevenueSummary) 0 0 0 = some 150
  ∧ projectedMargin (some cexNegativeRevenueSummary) 0 0 0 ≠ none := by
  have hrev : projectedRevenue (some cexNegativeRevenueSummary) 0 0 = -100 := by
    norm_num [projectedRevenue, baselineRevenue, cexNegativeRevenueSummary,
      mkSummary, Option.bind]
  have hcost : projectedCost (some cexNegativeRevenueSummary) 0 0 = 50 := by
    norm_num [projectedCost, baselineCost, baselineRevenue,
      cexNegativeRevenueSummary, mkSummary, Option.bind]
  have hmargin : projectedMargin (some cexNegativeRevenueSummary) 0 0 0 = some 150 := by
    rw [projectedMargin, if_neg (by rw [hrev]; norm_num)]
    rw [projectedProfit, hrev, hcost]
    norm_num
  exact ⟨hrev, hmargin, by rw [hmargin]; exact Option.some_ne_none _⟩

/-- C1 (amended): the margin identity -- the dataset profit_margin_pct
(modelled from the spec, since the backend engine is absent from the
tree) is total_profit / total_revenue * 100 exactly when total revenue is
positive and null otherwise; the projected margin of the scenario
simulator equals projected profit / projected revenue * 100 whenever the
projected revenue is non-zero (negative included) and is null exactly
when the projected revenue is zero. -/
theorem C1_margin_identity (bs : Option BusinessSummary) (p c v tp tr : ℚ) :
    (0 < tr → datasetProfitMarginPct tp tr = some (tp / tr * 100))
  ∧ (¬ 0 < tr → datasetProfitMarginPct tp tr = none)
  ∧ (projectedRevenue bs p v ≠ 0 →
       projectedMargin bs p c v
         = some (projectedProfit bs p c v / projectedRevenue bs p v * 100))
  ∧ (projectedRevenue bs p v = 0 → projectedMargin bs p c v = none) := by
  refine ⟨fun h => ?_, fun h => ?_, fun h => ?_, fun h => ?_⟩
  · rw [datasetProfitMarginPct, if_pos h]
  · rw [datasetProfitMarginPct, if_neg h]
  · rw [projectedMargin, if_neg h]
  · rw [projectedMargin, if_pos h]

theorem C1_margin_identity_witness :
    datasetProfitMarginPct 60 200 = some 30
  ∧ projectedMargin (some posSummary) 0 0 0 = some 40 := by
  have h := C1_margin_identity (some posSummary) 0 0 0 60 200
  have hrev : projectedRevenue (some posSummary) 0 0 = 100 := by
    norm_num [projectedRevenue, baselineRevenue, posSummary, mkSummary, Option.bind]
  have hcost : projectedCost (some posSummary) 0 0 = 60 := by
    norm_num [projectedCost, baselineCost, baselineRevenue, posSummary,
      mkSummary, Option.bind]
  refine ⟨?_, ?_⟩
  · rw [h.1 (by norm_num)]; norm_num
  · rw [h.2.2.1 (by rw [hrev]; norm_num)]
    rw [projectedProfit, hrev, hcost]
    norm_num

/-- C2: period-over-period growth -- when the last two points carry
finite numeric values a (latest) and b (previous) for the chosen metric,
the growth is (a - b) / |b| * 100, and it is null when there are fewer
than two points or the previous value is zero; this holds for both the
simplified-trend variant and the generic record variant. -/
theorem C2_period_growth :
    (∀ (points : List SimplifiedTrendPoint) (key : TrendKey),
        points.length < 2 → computeTrendPct points key = none)
  ∧ (∀ (points : List SimplifiedTrendPoint) (key : TrendKey) (a b : ℚ),
        2 ≤ points.length →
        (points.get? (points.length - 1)).bind (fun p => p.get key) = some (.fin a) →
        (points.get? (points.length - 2)).bind (fun p => p.get key) = some (.fin b) →
        computeTrendPct points key
          = if b = 0 then none else some (.fin ((a - b) / |b| * 100)))
  ∧ (∀ (rows : List (List (String × Cell))) (key : String),
        rows.length < 2 → pctChange rows key = none)
  ∧ (∀ (rows : List (List (String × Cell))) (key : String) (a b : ℚ),
        2 ≤ rows.length →
        (rows.get? (rows.length - 1)).bind (fun r => getField r key)
          = some (.num (.fin a)) →
        (rows.get? (rows.length - 2)).bind (fun r => getField r key)
          = some (.num (.fin b)) →
        pctChange rows key
          = if b = 0 then none else some (.fin ((a - b) / |b| * 100))) := by
  refine ⟨?_, ?_, ?_, ?_⟩
  · intro points key h
    rw [computeTrendPct, if_pos h]
  · intro points key a b hlen hl hp
    rw [computeTrendPct, if_neg (by omega)]
    rw [hl, hp]
    by_cases hb : b = 0
    · simp [jsEqNum, hb]
    · rw [if_neg hb]
      simp only [jsEqNum, beq_iff_eq, hb, if_false]
      simp [jsSub, jsAbs, jsDiv, jsMul, abs_eq_zero, hb]
  · intro rows key h
    rw [pctChange, if_pos h]
  · intro rows key a b hlen hl hp
    rw [pctChange]
    rw [if_neg (by omega)]
    simp only [hl, hp]
    by_cases hb : b = 0
    · simp [jsEqNum, JsNum.isFinite, hb]
    · rw [if_neg hb]
      simp only [jsEqNum, JsNum.isFinite, beq_iff_eq, hb, Bool.not_true,
        Bool.false_or, Bool.or_false, if_false, Bool.not_false]
      simp [jsSub, jsAbs, jsDiv, jsMul, abs_eq_zero, hb]

theorem C2_period_growth_witness :
    computeTrendPct [trendPointJan, trendPointFeb] .revenue = some (.fin 50)
  ∧ pctChange
      [[("month", .str "2024-01"), ("revenue", .num (.fin 100))],
       [("month", .str "2024-02"), ("revenue", .num (.fin 150))]] "revenue"
      = some (.fin 50) := by
  refine ⟨?_, ?_⟩
  · rw [C2_period_growth.2.1 [trendPointJan, trendPointFeb] .revenue 150 100
      (by decide) (by decide) (by decide)]
    rw [if_neg (by norm_num), abs_of_pos (by norm_num : (0:ℚ) < 100)]
    norm_num
  · rw [C2_period_growth.2.2.2
      [[("month", .str "2024-01"), ("revenue", .num (.fin 100))],
       [("month", .str "2024-02"), ("revenue", .num (.fin 150))]] "revenue" 150 100
      (by decide) (by decide) (by decide)]
    rw [if_neg (by norm_num), abs_of_pos (by norm_num : (0:ℚ) < 100)]
    norm_num

theorem progressPct_guard_target (actual : Option JsNum) (target : JsNum)
    (h : target.isFinite = false) : progressPct actual target = .fin 0 := by
  rw [progressPct, if_pos (by rw [h]; rfl)]

theorem progressPct_guard_nonpos (actual : Option JsNum) (t : ℚ) (ht : t ≤ 0) :
    progressPct actual (.fin t) = .fin 0 := by
  have hle : jsLe (.fin t) (.fin 0) = true := by
    simp [jsLe, jsGe, ht]
  rw [progressPct, if_pos (by rw [hle]; simp)]

theorem progressPct_guard_actual (actual : Option JsNum) (target : JsNum)
    (h : actual.elim false JsNum.isFinite = false) :
    progressPct actual target = .fin 0 := by
  rw [progressPct, if_pos (by rw [h]; simp)]

theorem progressPct_main (a t : ℚ) (ht : 0 < t) :
    progressPct (some (.fin a)) (.fin t) = .fin (max 0 (min 100 (a / t * 100))) := by
  have hcond : (!(JsNum.fin t).isFinite || jsLe (.fin t) (.fin 0)
      || !((some (JsNum.fin a)).elim false JsNum.isFinite)) = false := by
    simp [JsNum.isFinite, jsLe, jsGe, Option.elim]
    exact ht
  rw [progressPct, if_neg (by rw [hcond]; simp)]
  show jsMax (.fin 0) (jsMin (.fin 100) (jsMul (jsDiv (.fin a) (.fin t)) (.fin 100))) = _
  rw [jsDiv, if_neg ht.ne']
  show jsMax (.fin 0) (jsMin (.fin 100) (.fin (a / t * 100))) = _
  have hmin : jsMin (.fin 100) (.fin (a / t * 100)) = .fin (min 100 (a / t * 100)) := by
    show (if jsLe (.fin 100) (.fin (a / t * 100)) then JsNum.fin 100
      else .fin (a / t * 100)) = _
    rw [min_def]
    by_cases hx : (100:ℚ) ≤ a / t * 100
    · rw [if_pos hx]
      simp [jsLe, jsGe, hx]
    · rw [if_neg hx]
      simp [jsLe, jsGe, hx]
  rw [hmin]
  show (if jsGe (.fin 0) (.fin (min 100 (a / t * 100))) then JsNum.fin 0
    else .fin (min 100 (a / t * 100))) = _
  by_cases hy : min 100 (a / t * 100) ≤ 0
  · rw [if_pos (by simp [jsGe, hy]), max_eq_left hy]
  · have hge : jsGe (.fin 0) (.fin (min 100 (a / t * 100))) = false := by
      show decide ((min 100 (a / t * 100) : ℚ) ≤ 0) = false
      exact decide_eq_false hy
    rw [if_neg (by rw [hge]; simp), max_eq_right (le_of_lt (lt_of_not_le hy))]

/-- C9: progress percentages are always clamped -- progressPct always
returns a finite value in [0, 100]; it returns exactly 0 when the target
is not finite, the target is not strictly positive, or the actual value
is null or not finite; otherwise it returns min(100, max(0, actual /
target * 100)). -/
theorem C9_progress_clamped (actual : Option JsNum) (target : JsNum) :
    (∃ q : ℚ, progressPct actual target = .fin q ∧ 0 ≤ q ∧ q ≤ 100)
  ∧ (target.isFinite = false → progressPct actual target = .fin 0)
  ∧ (∀ t : ℚ, target = .fin t → t ≤ 0 → progressPct actual target = .fin 0)
  ∧ ((∀ a : ℚ, actual ≠ some (.fin a)) → progressPct actual target = .fin 0)
  ∧ (∀ a t : ℚ, actual = some (.fin a) → target = .fin t → 0 < t →
       progressPct actual target = .fin (min 100 (max 0 (a / t * 100)))) := by
  refine ⟨?_, progressPct_guard_target actual target,
    fun t hteq ht => hteq ▸ progressPct_guard_nonpos actual t ht,
    ?_, ?_⟩
  · rcases target with t | _ | _ | _
    · by_cases ht : t ≤ 0
      · exact ⟨0, progressPct_guard_nonpos actual t ht, le_refl 0, by norm_num⟩
      · rcases actual with _ | x
        · exact ⟨0, progressPct_guard_actual none _ rfl, le_refl 0, by norm_num⟩
        · rcases x with a | _ | _ | _
          · refine ⟨max 0 (min 100 (a / t * 100)),
              progressPct_main a t (lt_of_not_le ht), le_max_left 0 _, ?_⟩
            exact max_le (by norm_num) (min_le_left 100 _)
          · exact ⟨0, progressPct_guard_actual _ _ rfl, le_refl 0, by norm_num⟩
          · exact ⟨0, progressPct_guard_actual _ _ rfl, le_refl 0, by norm_num⟩
          · exact ⟨0, progressPct_guard_actual _ _ rfl, le_refl 0, by norm_num⟩
    · exact ⟨0, progressPct_guard_target actual _ rfl, le_refl 0, by norm_num⟩
    · exact ⟨0, progressPct_guard_target actual _ rfl, le_refl 0, by norm_num⟩
    · exact ⟨0, progressPct_guard_target actual _ rfl, le_refl 0, by norm_num⟩
  · intro h
    rcases actual with _ | x
    · exact progressPct_guard_actual none target rfl
    · rcases x with a | _ | _ | _
      · exact absurd rfl (h a)
      · exact progressPct_guard_actual _ _ rfl
      · exact progressPct_guard_actual _ _ rfl
      · exact progressPct_guard_actual _ _ rfl
  · intro a t ha hteq ht
    rw [ha, hteq, progressPct_main a t ht, max_min_clamp_swap]

theorem C9_progress_clamped_witness :
    progressPct (some (.fin 250)) (.fin 100) = .fin 100 := by
  rw [(C9_progress_clamped (some (.fin 250)) (.fin 100)).2.2.2.2 250 100 rfl rfl
    (by norm_num)]
  norm_num

/-- C6: degraded responses are well-formed and the external call is
time-bounded -- the handler always answers with one of the statuses 200,
400, 502 and a body carrying a boolean ok flag; 400 with ok=false for an
unparseable body or an invalid target URL, 502 with ok=false when the
upstream call throws (which includes the abort fired by the
requestTimeoutMs window) or responds non-OK, and 200 with ok=true exactly
when the upstream responds OK; no input leaves the handler without a
response value. -/
theorem C6_integration_endpoint (protocolOf : String → Option String)
    (bp : BodyParse) (upstream : UpstreamOutcome) :
    ((POST protocolOf bp upstream).status = 200
      ∨ (POST protocolOf bp upstream).status = 400
      ∨ (POST protocolOf bp upstream).status = 502)
  ∧ ((POST protocolOf bp upstream).ok = true
      ↔ (POST protocolOf bp upstream).status = 200)
  ∧ (bp = .failed →
      (POST protocolOf bp upstream).status = 400
      ∧ (POST protocolOf bp upstream).ok = false)
  ∧ (∀ body, bp = .parsed body →
      ((requestTargetUrl body == ""
          || !isValidHttpUrl protocolOf (requestTargetUrl body)) = true →
         (POST protocolOf bp upstream).status = 400
         ∧ (POST protocolOf bp upstream).ok = false)
      ∧ ((requestTargetUrl body == ""
          || !isValidHttpUrl protocolOf (requestTargetUrl body)) = false →
          ((∀ s, upstream = .responded false s →
              (POST protocolOf bp upstream).status = 502
              ∧ (POST protocolOf bp upstream).ok = false)
           ∧ (∀ m, upstream = .threw m →
              (POST protocolOf bp upstream).status = 502
              ∧ (POST protocolOf bp upstream).ok = false)
           ∧ (∀ s, upstream = .responded true s →
              (POST protocolOf bp upstream).status = 200
              ∧ (POST protocolOf bp upstream).ok = true)))) := by
  rcases bp with _ | body
  · refine ⟨Or.inr (Or.inl rfl), by simp [POST], fun _ => ⟨rfl, rfl⟩, fun body h => ?_⟩
    exact absurd h (by simp)
  · by_cases hurl : (requestTargetUrl body == ""
        || !isValidHttpUrl protocolOf (requestTargetUrl body)) = true
    · refine ⟨Or.inr (Or.inl ?_), ?_, by simp, fun b hb => ?_⟩
      · simp [POST, hurl]
      · simp [POST, hurl]
      · obtain rfl : body = b := by injection hb
        refine ⟨fun _ => ⟨by simp [POST, hurl], by simp [POST, hurl]⟩, fun hfalse => ?_⟩
        rw [hurl] at hfalse
        exact absurd hfalse (by simp)
    · have hurlf : (requestTargetUrl body == ""
          || !isValidHttpUrl protocolOf (requestTargetUrl body)) = false :=
        Bool.eq_false_iff.mpr hurl
      rcases upstream with ⟨fok, s⟩ | m
      · rcases fok with _ | _
        · refine ⟨Or.inr (Or.inr ?_), ?_, by simp, fun b hb => ?_⟩
          · simp [POST, hurlf]
          · simp [POST, hurlf]
          · obtain rfl : body = b := by injection hb
            refine ⟨fun htrue => absurd (hurlf ▸ htrue) (by simp), fun _ => ?_⟩
            refine ⟨fun s2 hs2 => ?_, fun m hm => by simp at hm, fun s2 hs2 => by simp at hs2⟩
            exact ⟨by simp [POST, hurlf], by simp [POST, hurlf]⟩
        · refine ⟨Or.inl ?_, ?_, by simp, fun b hb => ?_⟩
          · simp [POST, hurlf]
          · simp [POST, hurlf]
          · obtain rfl : body = b := by injection hb
            refine ⟨fun htrue => absurd (hurlf ▸ htrue) (by simp), fun _ => ?_⟩
            refine ⟨fun s2 hs2 => by simp at hs2, fun m hm => by simp at hm,
              fun s2 hs2 => ?_⟩
            exact ⟨by simp [POST, hurlf], by simp [POST, hurlf]⟩
      · refine ⟨Or.inr (Or.inr ?_), ?_, by simp, fun b hb => ?_⟩
        · simp [POST, hurlf]
        · simp [POST, hurlf]
        · obtain rfl : body = b := by injection hb
          refine ⟨fun htrue => absurd (hurlf ▸ htrue) (by simp), fun _ => ?_⟩
          refine ⟨fun s2 hs2 => by simp at hs2, fun m2 hm2 => ?_,
            fun s2 hs2 => by simp at hs2⟩
          exact ⟨by simp [POST, hurlf], by simp [POST, hurlf]⟩

theorem C6_integration_endpoint_witness :
    (POST httpsProtocolOf (.parsed exampleTestRequest) (.responded true 200)).status = 200
  ∧ (POST httpsProtocolOf (.parsed exampleTestRequest) (.responded true 200)).ok = true := by
  have h := C6_integration_endpoint httpsProtocolOf (.parsed exampleTestRequest)
    (.responded true 200)
  exact ((h.2.2.2 exampleTestRequest rfl).2 (by decide)).2.2 200 rfl

theorem any_key_filter_self (hs : List (String × String)) (a : String) :
    (hs.filter (fun p => p.1 ≠ a)).any (fun p => p.1 == a) = false := by
  rw [List.any_eq_false]
  intro x hx
  have hne := (List.mem_filter.mp hx).2
  intro hcon
  exact (of_decide_eq_true hne) (eq_of_beq hcon)

theorem any_key_filter_ne (hs : List (String × String)) (a b : String) (h : b ≠ a) :
    (hs.filter (fun p => p.1 ≠ a)).any (fun p => p.1 == b)
      = hs.any (fun p => p.1 == b) := by
  cases hR : hs.any (fun p => p.1 == b) with
  | true =>
      rw [List.any_eq_true] at hR ⊢
      obtain ⟨p, hp, hpb⟩ := hR
      refine ⟨p, List.mem_filter.mpr ⟨hp, ?_⟩, hpb⟩
      have hpb2 : p.1 = b := eq_of_beq hpb
      exact decide_eq_true (by rw [hpb2]; exact h)
  | false =>
      rw [List.any_eq_false] at hR ⊢
      intro x hx
      exact hR x (List.mem_filter.mp hx).1

theorem hhas_hset (hs : List (String × String)) (k v key : String) :
    hhas (hset hs k v) key = (lowerStr k == lowerStr key || hhas hs key) := by
  unfold hhas hset
  rw [List.any_append]
  by_cases h : lowerStr k = lowerStr key
  · rw [h, any_key_filter_self]
    simp
  · rw [any_key_filter_ne hs (lowerStr k) (lowerStr key) (fun hh => h hh.symm)]
    have hbk : (lowerStr k == lowerStr key) = false := beq_eq_false_iff_ne.mpr h
    simp [hbk]

theorem hhas_hdel_self (hs : List (String × String)) (k : String) :
    hhas (hdel hs k) k = false := by
  unfold hhas hdel
  exact any_key_filter_self hs (lowerStr k)

theorem hhas_hdel_ne (hs : List (String × String)) (k key : String)
    (h : lowerStr key ≠ lowerStr k) :
    hhas (hdel hs k) key = hhas hs key := by
  unfold hhas hdel
  exact any_key_filter_ne hs (lowerStr k) (lowerStr key) h

theorem hhas_congr (hs : List (String × String)) (k1 k2 : String)
    (h : lowerStr k1 = lowerStr k2) : hhas hs k1 = hhas hs k2 := by
  unfold hhas
  rw [h]

theorem hhas_copyHeadersAux (incoming : List (String × String))
    (acc : List (String × String)) (key : String)
    (h : hopByHopHeaders.contains (lowerStr key) = false) :
    hhas (copyHeadersAux acc incoming) key
      = (hhas acc key || incoming.any (fun p => lowerStr p.1 == lowerStr key)) := by
  induction incoming generalizing acc with
  | nil => simp [copyHeadersAux]
  | cons x rest ih =>
      rcases x with ⟨k1, v1⟩
      rw [copyHeadersAux]
      by_cases hk : hopByHopHeaders.contains (lowerStr k1) = true
      · have hne : (lowerStr k1 == lowerStr key) = false := by
          apply beq_eq_false_iff_ne.mpr
          intro hh
          rw [hh, h] at hk
          exact Bool.noConfusion hk
        rw [hk]
        rw [if_pos rfl, ih acc]
        simp [List.any_cons, hne]
      · have hkf : hopByHopHeaders.contains (lowerStr k1) = false :=
          Bool.eq_false_iff.mpr hk
        rw [hkf]
        rw [if_neg (by simp), ih, hhas_hset]
        rw [List.any_cons]
        cases hb1 : (lowerStr k1 == lowerStr key) <;>
          cases hb2 : hhas acc key <;> simp

theorem hhas_copyHeaders (incoming : List (String × String)) (key : String)
    (h : hopByHopHeaders.contains (lowerStr key) = false) :
    hhas (copyHeaders incoming) key
      = incoming.any (fun p => lowerStr p.1 == lowerStr key) := by
  rw [copyHeaders, hhas_copyHeadersAux incoming [] key h]
  simp [hhas]

theorem proxyRequestHeaders_with_auth (env : ProxyEnv)
    (incoming : List (String × String)) (path : List String)
    (hb : hhas (copyHeaders incoming) "authorization" = true) :
    proxyRequestHeaders env incoming path
      = hdel (hdel (copyHeaders incoming) "x-tenant-id") "x-user-id" := by
  simp only [proxyRequestHeaders, hb, Bool.not_true, Bool.false_eq_true, if_false]

theorem proxyRequestHeaders_pass (env : ProxyEnv)
    (incoming : List (String × String)) (path : List String)
    (hb : hhas (copyHeaders incoming) "authorization" = false)
    (h : allowsAnonymous path = true ∨ resolveAuthToken env = "") :
    proxyRequestHeaders env incoming path = copyHeaders incoming := by
  simp only [proxyRequestHeaders, hb, Bool.not_false, if_true]
  rcases h with h | h
  · simp [h]
  · by_cases ha : allowsAnonymous path = true
    · simp [ha]
    · simp [Bool.eq_false_iff.mpr ha, h]

theorem proxyRequestHeaders_inject (env : ProxyEnv)
    (incoming : List (String × String)) (path : List String)
    (hb : hhas (copyHeaders incoming) "authorization" = false)
    (ha : allowsAnonymous path = false)
    (htok : resolveAuthToken env ≠ "") :
    proxyRequestHeaders env incoming path
      = (if !hhas
            (if !hhas (hset (copyHeaders incoming) "Authorization"
                ("Bearer " ++ resolveAuthToken env)) "X-Tenant-Id"
             then hset (hset (copyHeaders incoming) "Authorization"
                ("Bearer " ++ resolveAuthToken env)) "X-Tenant-Id" env.tenantId
             else hset (copyHeaders incoming) "Authorization"
                ("Bearer " ++ resolveAuthToken env)) "X-User-Id"
         then hset
            (if !hhas (hset (copyHeaders incoming) "Authorization"
                ("Bearer " ++ resolveAuthToken env)) "X-Tenant-Id"
             then hset (hset (copyHeaders incoming) "Authorization"
                ("Bearer " ++ resolveAuthToken env)) "X-Tenant-Id" env.tenantId
             else hset (copyHeaders incoming) "Authorization"
                ("Bearer " ++ resolveAuthToken env)) "X-User-Id" env.userId
         else
            (if !hhas (hset (copyHeaders incoming) "Authorization"
                ("Bearer " ++ resolveAuthToken env)) "X-Tenant-Id"
             then hset (hset (copyHeaders incoming) "Authorization"
                ("Bearer " ++ resolveAuthToken env)) "X-Tenant-Id" env.tenantId
             else hset (copyHeaders incoming) "Authorization"
                ("Bearer " ++ resolveAuthToken env))) := by
  simp only [proxyRequestHeaders, hb, Bool.not_false, if_true, ha]
  rw [if_pos htok]

theorem hhas_hset_self (hs : List (String × String)) (k v key : String)
    (hk : lowerStr k = lowerStr key) : hhas (hset hs k v) key = true := by
  rw [hhas_hset, hk]
  simp

theorem hhas_chain_step (hs : List (String × String)) (k v key : String)
    (hprev : hhas hs key = true) : hhas (hset hs k v) key = true := by
  rw [hhas_hset, hprev]
  simp

theorem hhas_cond_step (hs : List (String × String)) (k v key : String) (c : Bool)
    (hprev : hhas hs key = true) :
    hhas (if c then hset hs k v else hs) key = true := by
  cases c
  · exact hprev
  · exact hhas_chain_step hs k v key hprev

theorem hhas_ensure (hs : List (String × String)) (k v key : String)
    (hk : lowerStr k = lowerStr key) :
    hhas (if !hhas hs k then hset hs k v else hs) key = true := by
  cases hc : hhas hs k
  · simp only [Bool.not_false, if_true]
    exact hhas_hset_self hs k v key hk
  · simp only [Bool.not_true, Bool.false_eq_true, if_false]
    rw [← hhas_congr hs k key hk]
    exact hc

/-- C8: tenant and user header hygiene in the API proxy -- when the
incoming request carries an Authorization header, the forwarded header
set contains no x-tenant-id and no x-user-id entry (client-supplied
tenant and user identifiers are always stripped); when it carries none,
the headers pass through unchanged on an anonymous-allowed path or with
an empty resolved token, and only on a non-anonymous path with a
nonempty resolved token are the fallback Authorization, X-Tenant-Id and
X-User-Id headers injected. -/
theorem C8_proxy_header_hygiene (env : ProxyEnv) (incoming : List (String × String))
    (path : List String) :
    (incoming.any (fun p => lowerStr p.1 == "authorization") = true →
       hhas (proxyRequestHeaders env incoming path) "x-tenant-id" = false
       ∧ hhas (proxyRequestHeaders env incoming path) "x-user-id" = false)
  ∧ (incoming.any (fun p => lowerStr p.1 == "authorization") = false →
       (allowsAnonymous path = true →
          proxyRequestHeaders env incoming path = copyHeaders incoming)
       ∧ (resolveAuthToken env = "" →
          proxyRequestHeaders env incoming path = copyHeaders incoming)
       ∧ (allowsAnonymous path = false → resolveAuthToken env ≠ "" →
            hhas (proxyRequestHeaders env incoming path) "authorization" = true
            ∧ hhas (proxyRequestHeaders env incoming path) "x-tenant-id" = true
            ∧ hhas (proxyRequestHeaders env incoming path) "x-user-id" = true)) := by
  have hlow : lowerStr "authorization" = "authorization" := by decide
  have hcopy : hhas (copyHeaders incoming) "authorization"
      = incoming.any (fun p => lowerStr p.1 == "authorization") := by
    rw [hhas_copyHeaders incoming "authorization" (by decide), hlow]
  constructor
  · intro h
    have hb : hhas (copyHeaders incoming) "authorization" = true := by
      rw [hcopy]; exact h
    rw [proxyRequestHeaders_with_auth env incoming path hb]
    constructor
    · rw [hhas_hdel_ne _ "x-user-id" "x-tenant-id" (by decide)]
      exact hhas_hdel_self _ "x-tenant-id"
    · exact hhas_hdel_self _ "x-user-id"
  · intro h
    have hb : hhas (copyHeaders incoming) "authorization" = false := by
      rw [hcopy]; exact h
    refine ⟨fun ha => proxyRequestHeaders_pass env incoming path hb (Or.inl ha),
      fun ht => proxyRequestHeaders_pass env incoming path hb (Or.inr ht),
      fun ha htok => ?_⟩
    rw [proxyRequestHeaders_inject env incoming path hb ha htok]
    refine ⟨?_, ?_, ?_⟩
    · apply hhas_cond_step
      apply hhas_cond_step
      exact hhas_hset_self _ "Authorization" _ "authorization" (by decide)
    · apply hhas_cond_step
      exact hhas_ensure _ "X-Tenant-Id" _ "x-tenant-id" (by decide)
    · exact hhas_ensure _ "X-User-Id" _ "x-user-id" (by decide)

theorem C8_proxy_header_hygiene_witness :
    hhas (proxyRequestHeaders devProxyEnv authedIncoming ["datasets", "clear"])
      "x-tenant-id" = false
  ∧ hhas (proxyRequestHeaders devProxyEnv authedIncoming ["datasets", "clear"])
      "x-user-id" = false :=
  (C8_proxy_header_hygiene devProxyEnv authedIncoming ["datasets", "clear"]).1 (by decide)
